import Mathlib

/-!
Shallow embedding of romio's Unix-domain-socket listener core
(src/src/uds/listener.rs): the readiness-gated accept suspension point
(UnixListener::poll_accept_std), the AsyncReady layer (poll_ready), the
accept stream (Incoming::poll_next), adoption of an existing OS listener
(TryFrom), and the pending-error query (take_error).

External collaborators — the reactor (poll_read_ready / clear_read_ready on
PollEvented), the OS accept call (mio_uds accept_std) and the std→mio stream
conversion (from_stream) — are modelled as an explicit per-call environment
of responses; the side effects a call performs are recorded as a trace of
effects, so that claims about "no accept is performed" or "exactly one
accept attempt" are statements about the trace.
-/

/-- Kind of an OS error; the listener code distinguishes only WouldBlock. -/
inductive ErrorKind
  | wouldBlock
  | otherKind (code : Nat)
deriving DecidableEq

/-- Model of std::io::Error; the listener inspects only its kind. -/
structure IOError where
  kind : ErrorKind
deriving DecidableEq

/-- Model of std::task::Poll. -/
inductive Poll (α : Type)
  | ready (a : α)
  | pending
deriving DecidableEq

/-- Observable side effects of one call into the suspension point:
registering interest with the reactor (done by poll_read_ready when it
returns Pending), one non-blocking OS accept attempt (accept_std), and
clearing the readiness flag (clear_read_ready). -/
inductive Effect
  | registerInterest
  | acceptAttempt
  | clearReadiness
deriving DecidableEq

/-- Outcome of PollEvented::poll_read_ready as observed by poll_accept_std:
not yet readable (Pending), readable, or a reactor-side error. -/
inductive ReadReadyResult
  | notReady
  | isReady
  | error (e : IOError)
deriving DecidableEq

/-- Outcome of the non-blocking OS accept (mio_uds accept_std):
Ok(Some((sock, addr))), Ok(None), or Err(e). Sockets and addresses are
opaque handles, modelled as Nat ids. -/
inductive AcceptResult
  | conn (sock : Nat) (addr : Nat)
  | noConn
  | acceptErr (e : IOError)
deriving DecidableEq

/-- Outcome of PollEvented::clear_read_ready. -/
inductive ClearResult
  | ok
  | err (e : IOError)
deriving DecidableEq

/-- Per-call environment: the responses of the external collaborators during
one call into the listener. fromStream gives the result of
mio_uds::UnixStream::from_stream on the accepted std stream handle. -/
structure Env where
  readReady : ReadReadyResult
  accept : AcceptResult
  clear : ClearResult
  fromStream : Nat → Except IOError Nat

/-- Model of romio's UnixListener (listener.rs 42-44): wraps the polled
mio listener handle. -/
structure UnixListener where
  fd : Nat
deriving DecidableEq

/-- Model of romio's UnixStream: wraps the mio stream handle. -/
structure UnixStream where
  fd : Nat
deriving DecidableEq

/-- UnixStream::new: wraps a mio stream. -/
def UnixStream.new (fd : Nat) : UnixStream := ⟨fd⟩

/-- UnixListener::new (listener.rs 66-69): wraps a mio listener in a
PollEvented. -/
def UnixListener.new (fd : Nat) : UnixListener := ⟨fd⟩

/-- Embedding of UnixListener::poll_accept_std (listener.rs 120-138).
ready!(poll_read_ready) either propagates a reactor error, or returns
Pending (interest registered), or falls through to one accept_std call;
Ok(Some) is returned as success; Ok(None) and Err(WouldBlock) both clear
the readiness flag and return Pending (a failing clear propagates its
error via ?); any other error is returned. Returns the poll outcome and
the trace of effects performed. -/
def UnixListener.poll_accept_std (env : Env) :
    Poll (Except IOError (Nat × Nat)) × List Effect :=
  match env.readReady with
  | ReadReadyResult.error e => (Poll.ready (Except.error e), [])
  | ReadReadyResult.notReady => (Poll.pending, [Effect.registerInterest])
  | ReadReadyResult.isReady =>
    match env.accept with
    | AcceptResult.conn sock addr =>
        (Poll.ready (Except.ok (sock, addr)), [Effect.acceptAttempt])
    | AcceptResult.noConn =>
        match env.clear with
        | ClearResult.ok =>
            (Poll.pending, [Effect.acceptAttempt, Effect.clearReadiness])
        | ClearResult.err e =>
            (Poll.ready (Except.error e),
             [Effect.acceptAttempt, Effect.clearReadiness])
    | AcceptResult.acceptErr e =>
        if e.kind = ErrorKind.wouldBlock then
          match env.clear with
          | ClearResult.ok =>
              (Poll.pending, [Effect.acceptAttempt, Effect.clearReadiness])
          | ClearResult.err e2 =>
              (Poll.ready (Except.error e2),
               [Effect.acceptAttempt, Effect.clearReadiness])
        else (Poll.ready (Except.error e), [Effect.acceptAttempt])

/-- Embedding of the AsyncReady impl's poll_ready (listener.rs 146-150):
delegates to poll_accept_std; on success converts the accepted std stream
with from_stream (propagating a conversion error via ?) and wraps it in
UnixStream::new, keeping the peer address. -/
def UnixListener.poll_ready (env : Env) :
    Poll (Except IOError (UnixStream × Nat)) × List Effect :=
  match UnixListener.poll_accept_std env with
  | (Poll.pending, tr) => (Poll.pending, tr)
  | (Poll.ready (Except.error e), tr) => (Poll.ready (Except.error e), tr)
  | (Poll.ready (Except.ok (sock, addr)), tr) =>
    match env.fromStream sock with
    | Except.error e => (Poll.ready (Except.error e), tr)
    | Except.ok mio => (Poll.ready (Except.ok (UnixStream.new mio, addr)), tr)

/-- Embedding of the Stream impl for Incoming (listener.rs 212-215):
delegates to poll_ready (? propagates an error as Ready(Some(Err))),
discards the address, and yields Ready(Some(Ok(socket))). -/
def Incoming.poll_next (env : Env) :
    Poll (Option (Except IOError UnixStream)) × List Effect :=
  match UnixListener.poll_ready env with
  | (Poll.pending, tr) => (Poll.pending, tr)
  | (Poll.ready (Except.error e), tr) =>
      (Poll.ready (some (Except.error e)), tr)
  | (Poll.ready (Except.ok (socket, _)), tr) =>
      (Poll.ready (some (Except.ok socket)), tr)

/-- Embedding of TryFrom<net::UnixListener> for UnixListener
(listener.rs 189-195): mio_uds::UnixListener::from_listener is external
(it readies the handle for reactor registration); its outcome is passed
in, and the code maps UnixListener::new over it. -/
def UnixListener.try_from (fromListener : Except IOError Nat) :
    Except IOError UnixListener :=
  fromListener.map UnixListener.new

/-- OS-level state of the listening socket relevant to SO_ERROR. -/
structure SocketState where
  valid : Bool
  pendingError : Option IOError

/-- Modelled from the spec: the OS "last socket error" (SO_ERROR) query
performed by mio_uds's take_error, which listener.rs 172-174 delegates to
and whose code is not part of this repository. Spec: "returns and clears
the socket's pending error state, mirroring the OS-level last socket
error query; does not fail under normal conditions but surfaces the
underlying OS query failure if the descriptor is invalid." EBADF is
modelled as otherKind 9. -/
def osTakeError (s : SocketState) :
    Except IOError (Option IOError) × SocketState :=
  if s.valid then (Except.ok s.pendingError, { s with pendingError := none })
  else (Except.error ⟨ErrorKind.otherKind 9⟩, s)

/-- Embedding of TakeError::take_error (listener.rs 172-174): pure
delegation to the inner socket's query. -/
def UnixListener.take_error (s : SocketState) :
    Except IOError (Option IOError) × SocketState :=
  osTakeError s

/-- Environment trace model for the acceptance sequence: the OS/reactor
state visible to one listener — the FIFO queue of pending connections
(distinct ids) and the level-triggered readiness flag the reactor reports. -/
structure World where
  queue : List Nat
  readyFlag : Bool
deriving DecidableEq

/-- One step of an environment trace: a peer connection arriving (queued,
socket becomes readable), a readiness notification (possibly spurious or
batched — it only sets the flag), or the consumer pulling once on the
acceptance sequence. -/
inductive Event
  | arrive (c : Nat)
  | notify
  | poll
deriving DecidableEq

/-- The per-call environment a poll observes in a given world: readiness is
read from the flag, accept_std takes the queue head (Ok(None) when empty),
clear_read_ready succeeds, and stream conversion succeeds. -/
def envOfWorld (w : World) : Env :=
  { readReady :=
      if w.readyFlag then ReadReadyResult.isReady else ReadReadyResult.notReady
  , accept :=
      match w.queue with
      | [] => AcceptResult.noConn
      | c :: _ => AcceptResult.conn c c
  , clear := ClearResult.ok
  , fromStream := fun sock => Except.ok sock }

/-- How each effect recorded by a call updates the world: an accept attempt
dequeues the head connection (none when empty), clearing readiness resets
the flag, registering interest changes nothing here. -/
def World.applyEffect (w : World) : Effect → World
  | Effect.registerInterest => w
  | Effect.acceptAttempt => { w with queue := w.queue.tail }
  | Effect.clearReadiness => { w with readyFlag := false }

/-- State of a run: the world plus the items the sequence has emitted
(each Ready result of a pull; Pending pulls emit nothing). -/
structure RunState where
  world : World
  emitted : List (Option (Except IOError UnixStream))

/-- One step of the run: arrivals enqueue and set readiness, notifications
set readiness, and a pull runs Incoming::poll_next against the current
world, applies the effects it performed, and records a Ready item. -/
def RunState.step (st : RunState) : Event → RunState
  | Event.arrive c =>
      { st with world :=
          { queue := st.world.queue ++ [c], readyFlag := true } }
  | Event.notify =>
      { st with world := { st.world with readyFlag := true } }
  | Event.poll =>
      match Incoming.poll_next (envOfWorld st.world) with
      | (Poll.pending, tr) =>
          { st with world := tr.foldl World.applyEffect st.world }
      | (Poll.ready item, tr) =>
          { world := tr.foldl World.applyEffect st.world
          , emitted := st.emitted ++ [item] }

/-- Run an environment trace from the initial state: empty queue, not
readable, nothing emitted. -/
def run (evs : List Event) : RunState :=
  evs.foldl RunState.step ⟨⟨[], false⟩, []⟩

/-- The connection ids of the successful items among the emitted ones. -/
def okId : Option (Except IOError UnixStream) → List Nat
  | some (Except.ok s) => [s.fd]
  | _ => []

/-- Ids of all successful items emitted, in emission order. -/
def okIds : List (Option (Except IOError UnixStream)) → List Nat
  | [] => []
  | it :: rest => okId it ++ okIds rest

/-- The connection ids an event contributes (arrivals only). -/
def arrivalsOf : Event → List Nat
  | Event.arrive c => [c]
  | _ => []

/-- All connection ids that arrived during a trace, in arrival order. -/
def arrivals : List Event → List Nat
  | [] => []
  | ev :: rest => arrivalsOf ev ++ arrivals rest

/-! Concrete environments used by the witnesses. -/

/-- Readiness reported, one pending connection (socket 7, peer address 3),
all collaborator calls succeed. -/
def envDemoConn : Env :=
  { readReady := ReadReadyResult.isReady
  , accept := AcceptResult.conn 7 3
  , clear := ClearResult.ok
  , fromStream := fun sock => Except.ok sock }

/-- Readiness source reports not readable. -/
def envDemoNotReady : Env :=
  { envDemoConn with readReady := ReadReadyResult.notReady }

/-- Readiness reported but accept finds no pending connection. -/
def envDemoNoConn : Env :=
  { envDemoConn with accept := AcceptResult.noConn }

/-- Accept fails with a hard (ECONNRESET-like) error. -/
def envDemoHardErr : Env :=
  { envDemoConn with accept := AcceptResult.acceptErr ⟨ErrorKind.otherKind 104⟩ }

/-- Accept fails with WouldBlock. -/
def envDemoWouldBlock : Env :=
  { envDemoConn with accept := AcceptResult.acceptErr ⟨ErrorKind.wouldBlock⟩ }

/-- Transient accept outcome and a failing clear_read_ready (EIO-like). -/
def envDemoClearFail : Env :=
  { envDemoNoConn with clear := ClearResult.err ⟨ErrorKind.otherKind 5⟩ }

/-- Accept succeeds but the std→mio stream conversion fails (EINVAL-like). -/
def envDemoConvFail : Env :=
  { envDemoConn with fromStream := fun _ => Except.error ⟨ErrorKind.otherKind 22⟩ }

/-- Claim C1: if the readiness source reports not readable, poll_accept_std
returns Pending with interest registered and performs no accept attempt;
once readiness is reported, exactly one non-blocking accept attempt is
performed, and an accepted connection is returned as a success together
with the peer address. -/
theorem poll_accept_std_readiness_gate (env : Env) :
    (env.readReady = ReadReadyResult.notReady →
      UnixListener.poll_accept_std env
          = (Poll.pending, [Effect.registerInterest])
        ∧ Effect.acceptAttempt ∉ (UnixListener.poll_accept_std env).2)
    ∧ (env.readReady = ReadReadyResult.isReady →
      List.count Effect.acceptAttempt (UnixListener.poll_accept_std env).2 = 1)
    ∧ (∀ sock addr, env.readReady = ReadReadyResult.isReady →
      env.accept = AcceptResult.conn sock addr →
      UnixListener.poll_accept_std env
        = (Poll.ready (Except.ok (sock, addr)), [Effect.acceptAttempt])) := by
  obtain ⟨rr, ac, cl, fs⟩ := env
  refine ⟨?_, ?_, ?_⟩
  · intro h
    cases h
    refine ⟨rfl, ?_⟩
    simp [UnixListener.poll_accept_std]
  · intro h
    cases h
    cases ac with
    | conn sock addr => rfl
    | noConn => cases cl <;> rfl
    | acceptErr e =>
      simp only [UnixListener.poll_accept_std]
      by_cases hk : e.kind = ErrorKind.wouldBlock
      · rw [if_pos hk]
        cases cl <;> rfl
      · rw [if_neg hk]
        rfl
  · intro sock addr h hacc
    cases h
    cases hacc
    rfl

/-- Claim C1 witness: concrete not-ready and ready-with-connection calls. -/
theorem poll_accept_std_readiness_gate_witness :
    (UnixListener.poll_accept_std envDemoNotReady
        = (Poll.pending, [Effect.registerInterest])
      ∧ Effect.acceptAttempt ∉ (UnixListener.poll_accept_std envDemoNotReady).2)
    ∧ List.count Effect.acceptAttempt
        (UnixListener.poll_accept_std envDemoConn).2 = 1
    ∧ UnixListener.poll_accept_std envDemoConn
        = (Poll.ready (Except.ok (7, 3)), [Effect.acceptAttempt]) :=
  ⟨(poll_accept_std_readiness_gate envDemoNotReady).1 rfl,
   (poll_accept_std_readiness_gate envDemoConn).2.1 rfl,
   (poll_accept_std_readiness_gate envDemoConn).2.2 7 3 rfl rfl⟩

/-- Claim C2: a hard (non-would-block) accept error makes a single pull of
Incoming::poll_next return Ready(Some(Err(e))) — one failed item — and does
not end the stream: the pull function is unchanged by the failure (Incoming
holds no state besides the listener), so a subsequent pull against an
environment with a pending connection yields a success. -/
theorem incoming_error_item_not_terminal (env envNext : Env) (e : IOError)
    (sock addr mio : Nat) :
    env.readReady = ReadReadyResult.isReady →
    env.accept = AcceptResult.acceptErr e →
    e.kind ≠ ErrorKind.wouldBlock →
    envNext.readReady = ReadReadyResult.isReady →
    envNext.accept = AcceptResult.conn sock addr →
    envNext.fromStream sock = Except.ok mio →
    (Incoming.poll_next env).1 = Poll.ready (some (Except.error e))
    ∧ (Incoming.poll_next envNext).1
        = Poll.ready (some (Except.ok (UnixStream.new mio))) := by
  intro h1 h2 h3 h4 h5 h6
  constructor
  · obtain ⟨rr, ac, cl, fs⟩ := env
    simp only at h1 h2
    cases h1
    cases h2
    simp [Incoming.poll_next, UnixListener.poll_ready,
      UnixListener.poll_accept_std, if_neg h3]
  · obtain ⟨rr, ac, cl, fs⟩ := envNext
    simp only at h4 h5 h6
    cases h4
    cases h5
    simp [Incoming.poll_next, UnixListener.poll_ready,
      UnixListener.poll_accept_std, h6]

/-- Claim C2 witness: a concrete hard-error pull followed by a concrete
successful pull. -/
theorem incoming_error_item_not_terminal_witness :
    (Incoming.poll_next envDemoHardErr).1
        = Poll.ready (some (Except.error ⟨ErrorKind.otherKind 104⟩))
    ∧ (Incoming.poll_next envDemoConn).1
        = Poll.ready (some (Except.ok (UnixStream.new 7))) :=
  incoming_error_item_not_terminal envDemoHardErr envDemoConn
    ⟨ErrorKind.otherKind 104⟩ 7 3 7 rfl rfl (by decide) rfl rfl rfl

/-- Claim C4: Incoming::poll_next never returns Poll::Ready(None): for every
environment (every readiness response and accept outcome) the end-of-stream
signal is never emitted. -/
theorem incoming_never_ends (env : Env) :
    (Incoming.poll_next env).1 ≠ Poll.ready none := by
  rcases hp : UnixListener.poll_ready env with ⟨p, tr⟩
  cases p with
  | pending => simp [Incoming.poll_next, hp]
  | ready r =>
    cases r with
    | error e => simp [Incoming.poll_next, hp]
    | ok x =>
      obtain ⟨s, a⟩ := x
      simp [Incoming.poll_next, hp]

/-- Claim C4 witness: concrete evaluation at a ready environment. -/
theorem incoming_never_ends_witness :
    (Incoming.poll_next envDemoConn).1 ≠ Poll.ready none :=
  incoming_never_ends envDemoConn

/-- Claim C5: the two transient accept outcomes — Ok(None) and a WouldBlock
error — make poll_accept_std behave identically; with readiness reported and
a working reactor they clear the readiness flag and return Pending; and as
long as the collaborator calls themselves (poll_read_ready, clear_read_ready,
from_stream) never fail with a WouldBlock-kind error, neither poll_accept_std
nor a pull of the sequence ever returns an error of kind WouldBlock. -/
theorem transient_outcomes_hidden (env : Env) (e : IOError) :
    (e.kind = ErrorKind.wouldBlock →
      UnixListener.poll_accept_std { env with accept := AcceptResult.noConn }
        = UnixListener.poll_accept_std
            { env with accept := AcceptResult.acceptErr e })
    ∧ (env.readReady = ReadReadyResult.isReady → env.clear = ClearResult.ok →
        (env.accept = AcceptResult.noConn
          ∨ env.accept = AcceptResult.acceptErr e
              ∧ e.kind = ErrorKind.wouldBlock) →
        UnixListener.poll_accept_std env
          = (Poll.pending, [Effect.acceptAttempt, Effect.clearReadiness]))
    ∧ (∀ e1,
        (∀ e0, env.readReady = ReadReadyResult.error e0 →
          e0.kind ≠ ErrorKind.wouldBlock) →
        (∀ e0, env.clear = ClearResult.err e0 →
          e0.kind ≠ ErrorKind.wouldBlock) →
        (∀ sock e0, env.fromStream sock = Except.error e0 →
          e0.kind ≠ ErrorKind.wouldBlock) →
        ((UnixListener.poll_accept_std env).1 = Poll.ready (Except.error e1) →
          e1.kind ≠ ErrorKind.wouldBlock)
        ∧ ((Incoming.poll_next env).1 = Poll.ready (some (Except.error e1)) →
          e1.kind ≠ ErrorKind.wouldBlock)) := by
  obtain ⟨rr, ac, cl, fs⟩ := env
  refine ⟨?_, ?_, ?_⟩
  · intro hk
    cases rr with
    | error e0 => rfl
    | notReady => rfl
    | isReady =>
      simp only [UnixListener.poll_accept_std]
      rw [if_pos hk]
  · intro hr hc hac
    simp only at hr hc
    cases hr
    cases hc
    rcases hac with hac | ⟨hac, hk⟩
    · simp only at hac
      cases hac
      rfl
    · simp only at hac
      cases hac
      simp only [UnixListener.poll_accept_std]
      rw [if_pos hk]
  · intro e1 hrr hcl hfs
    cases rr with
    | error e0 =>
      constructor
      · intro h
        simp only [UnixListener.poll_accept_std] at h
        cases h
        exact hrr e1 rfl
      · intro h
        simp only [Incoming.poll_next, UnixListener.poll_ready,
          UnixListener.poll_accept_std] at h
        cases h
        exact hrr e1 rfl
    | notReady =>
      constructor
      · intro h
        simp only [UnixListener.poll_accept_std] at h
        cases h
      · intro h
        simp only [Incoming.poll_next, UnixListener.poll_ready,
          UnixListener.poll_accept_std] at h
        cases h
    | isReady =>
      cases ac with
      | conn sock addr =>
        constructor
        · intro h
          simp only [UnixListener.poll_accept_std] at h
          cases h
        · intro h
          rcases hconv : fs sock with e0 | mio
          · simp only [Incoming.poll_next, UnixListener.poll_ready,
              UnixListener.poll_accept_std, hconv] at h
            cases h
            exact hfs sock e1 hconv
          · simp only [Incoming.poll_next, UnixListener.poll_ready,
              UnixListener.poll_accept_std, hconv] at h
            cases h
      | noConn =>
        cases cl with
        | ok =>
          constructor
          · intro h
            simp only [UnixListener.poll_accept_std] at h
            cases h
          · intro h
            simp only [Incoming.poll_next, UnixListener.poll_ready,
              UnixListener.poll_accept_std] at h
            cases h
        | err e0 =>
          constructor
          · intro h
            simp only [UnixListener.poll_accept_std] at h
            cases h
            exact hcl e1 rfl
          · intro h
            simp only [Incoming.poll_next, UnixListener.poll_ready,
              UnixListener.poll_accept_std] at h
            cases h
            exact hcl e1 rfl
      | acceptErr ea =>
        by_cases hk : ea.kind = ErrorKind.wouldBlock
        · cases cl with
          | ok =>
            constructor
            · intro h
              simp only [UnixListener.poll_accept_std, if_pos hk] at h
              cases h
            · intro h
              simp only [Incoming.poll_next, UnixListener.poll_ready,
                UnixListener.poll_accept_std, if_pos hk] at h
              cases h
          | err e0 =>
            constructor
            · intro h
              simp only [UnixListener.poll_accept_std, if_pos hk] at h
              cases h
              exact hcl e1 rfl
            · intro h
              simp only [Incoming.poll_next, UnixListener.poll_ready,
                UnixListener.poll_accept_std, if_pos hk] at h
              cases h
              exact hcl e1 rfl
        · constructor
          · intro h
            simp only [UnixListener.poll_accept_std, if_neg hk] at h
            cases h
            exact hk
          · intro h
            simp only [Incoming.poll_next, UnixListener.poll_ready,
              UnixListener.poll_accept_std, if_neg hk] at h
            cases h
            exact hk

/-- Claim C5 witness: concrete no-connection and would-block calls, and the
no-WouldBlock-surfaced property at a hard-error environment. -/
theorem transient_outcomes_hidden_witness :
    UnixListener.poll_accept_std envDemoNoConn
      = UnixListener.poll_accept_std envDemoWouldBlock
    ∧ UnixListener.poll_accept_std envDemoNoConn
      = (Poll.pending, [Effect.acceptAttempt, Effect.clearReadiness])
    ∧ ((UnixListener.poll_accept_std envDemoHardErr).1
        = Poll.ready (Except.error ⟨ErrorKind.otherKind 104⟩) →
      (⟨ErrorKind.otherKind 104⟩ : IOError).kind ≠ ErrorKind.wouldBlock) :=
  ⟨(transient_outcomes_hidden envDemoNoConn
      ⟨ErrorKind.wouldBlock⟩).1 rfl,
   (transient_outcomes_hidden envDemoNoConn
      ⟨ErrorKind.wouldBlock⟩).2.1 rfl rfl (Or.inl rfl),
   ((transient_outcomes_hidden envDemoHardErr
      ⟨ErrorKind.wouldBlock⟩).2.2 ⟨ErrorKind.otherKind 104⟩
      (fun e0 h => by cases h)
      (fun e0 h => by cases h)
      (fun sock e0 h => by cases h)).1⟩

/-- Claim C6: adopting a pre-existing OS listening socket
(TryFrom<net::UnixListener>) propagates any failure of the mio-side
registration/conversion step (from_listener) as an error — no Listener is
produced — and on success wraps the handle with UnixListener::new. -/
theorem tryFrom_registration_failure (r : Except IOError Nat) :
    (∀ e, r = Except.error e → UnixListener.try_from r = Except.error e)
    ∧ (∀ l, r = Except.ok l →
        UnixListener.try_from r = Except.ok (UnixListener.new l)) := by
  constructor
  · intro e h
    cases h
    rfl
  · intro l h
    cases h
    rfl

/-- Claim C6 witness: a concrete registration failure (EINVAL-like) and a
concrete success. -/
theorem tryFrom_registration_failure_witness :
    UnixListener.try_from (Except.error ⟨ErrorKind.otherKind 22⟩)
      = Except.error ⟨ErrorKind.otherKind 22⟩
    ∧ UnixListener.try_from (Except.ok 4)
      = Except.ok (UnixListener.new 4) :=
  ⟨(tryFrom_registration_failure
      (Except.error ⟨ErrorKind.otherKind 22⟩)).1 ⟨ErrorKind.otherKind 22⟩ rfl,
   (tryFrom_registration_failure (Except.ok 4)).2 4 rfl⟩

/-- Claim C7: on a successful accept, a pull of the sequence yields exactly
the stream component of the pair produced by poll_ready, with the address
component dropped at the Incoming boundary. -/
theorem incoming_yields_stream_drops_addr (env : Env) (s : UnixStream)
    (addr : Nat) (tr : List Effect) :
    UnixListener.poll_ready env = (Poll.ready (Except.ok (s, addr)), tr) →
    Incoming.poll_next env = (Poll.ready (some (Except.ok s)), tr) := by
  intro h
  simp [Incoming.poll_next, h]

/-- Claim C7 witness: concrete successful accept of socket 7 at address 3. -/
theorem incoming_yields_stream_drops_addr_witness :
    Incoming.poll_next envDemoConn
      = (Poll.ready (some (Except.ok (UnixStream.new 7))), [Effect.acceptAttempt]) :=
  incoming_yields_stream_drops_addr envDemoConn (UnixStream.new 7) 3
    [Effect.acceptAttempt] rfl

/-- Claim C8: take_error returns the socket's pending error state and clears
it — Ok(Some(err)) when a pending error exists, after which a further query
with no new error returns Ok(None) — and fails only when the underlying OS
query itself fails, i.e. on an invalid descriptor. -/
theorem take_error_returns_and_clears (s : SocketState) (e : IOError) :
    (s.valid = true → s.pendingError = some e →
      UnixListener.take_error s
          = (Except.ok (some e), { s with pendingError := none })
        ∧ (UnixListener.take_error { s with pendingError := none }).1
          = Except.ok none)
    ∧ (s.valid = false →
      UnixListener.take_error s = (Except.error ⟨ErrorKind.otherKind 9⟩, s)) := by
  obtain ⟨v, pe⟩ := s
  constructor
  · intro hv hpe
    simp only at hv hpe
    cases hv
    cases hpe
    exact ⟨rfl, rfl⟩
  · intro hv
    simp only at hv
    cases hv
    rfl

/-- Claim C8 witness: a socket with a pending ECONNRESET-like error, and an
invalid descriptor. -/
theorem take_error_returns_and_clears_witness :
    (UnixListener.take_error ⟨true, some ⟨ErrorKind.otherKind 104⟩⟩
        = (Except.ok (some ⟨ErrorKind.otherKind 104⟩), ⟨true, none⟩)
      ∧ (UnixListener.take_error ⟨true, none⟩).1 = Except.ok none)
    ∧ UnixListener.take_error ⟨false, none⟩
        = (Except.error ⟨ErrorKind.otherKind 9⟩, ⟨false, none⟩) :=
  ⟨(take_error_returns_and_clears ⟨true, some ⟨ErrorKind.otherKind 104⟩⟩
      ⟨ErrorKind.otherKind 104⟩).1 rfl rfl,
   (take_error_returns_and_clears ⟨false, none⟩
      ⟨ErrorKind.otherKind 104⟩).2 rfl⟩

/-- Claim C9: on the transient path (accept reports no connection or
WouldBlock), if clear_read_ready itself fails, poll_accept_std returns that
clearing error as Ready(Err), not Pending. -/
theorem clear_failure_surfaces_error (env : Env) (e : IOError) :
    env.readReady = ReadReadyResult.isReady →
    env.clear = ClearResult.err e →
    (env.accept = AcceptResult.noConn
      ∨ ∃ e1, env.accept = AcceptResult.acceptErr e1
          ∧ e1.kind = ErrorKind.wouldBlock) →
    (UnixListener.poll_accept_std env).1 = Poll.ready (Except.error e) := by
  obtain ⟨rr, ac, cl, fs⟩ := env
  intro hr hc hac
  simp only at hr hc
  cases hr
  cases hc
  rcases hac with hac | ⟨e1, hac, hk⟩
  · simp only at hac
    cases hac
    rfl
  · simp only at hac
    cases hac
    simp only [UnixListener.poll_accept_std]
    rw [if_pos hk]

/-- Claim C9 witness: no-connection accept outcome with a failing clear. -/
theorem clear_failure_surfaces_error_witness :
    (UnixListener.poll_accept_std envDemoClearFail).1
      = Poll.ready (Except.error ⟨ErrorKind.otherKind 5⟩) :=
  clear_failure_surfaces_error envDemoClearFail ⟨ErrorKind.otherKind 5⟩
    rfl rfl (Or.inl rfl)

/-- Claim C10: a pull can consume a pending connection and still yield an
error item — when accept succeeds but the std→mio conversion fails,
poll_ready returns Ready(Err) with the accept attempt performed, so the
already-accepted connection never surfaces as a success item. -/
theorem conversion_failure_drops_connection (env : Env) (sock addr : Nat)
    (e : IOError) :
    env.readReady = ReadReadyResult.isReady →
    env.accept = AcceptResult.conn sock addr →
    env.fromStream sock = Except.error e →
    UnixListener.poll_ready env
      = (Poll.ready (Except.error e), [Effect.acceptAttempt]) := by
  obtain ⟨rr, ac, cl, fs⟩ := env
  intro hr hac hconv
  simp only at hr hac hconv
  cases hr
  cases hac
  simp [UnixListener.poll_ready, UnixListener.poll_accept_std, hconv]

/-- Claim C10 witness: accepted connection 7 whose conversion fails. -/
theorem conversion_failure_drops_connection_witness :
    UnixListener.poll_ready envDemoConvFail
      = (Poll.ready (Except.error ⟨ErrorKind.otherKind 22⟩),
         [Effect.acceptAttempt]) :=
  conversion_failure_drops_connection envDemoConvFail 7 3
    ⟨ErrorKind.otherKind 22⟩ rfl rfl rfl

/-- A demonstration trace: a pull before anything arrives, two peers
connecting before the next pull, two pulls draining them, a spurious
notification and an empty pull, then a third arrival and its pull, and a
final pull finding nothing. -/
def demoTrace : List Event :=
  [Event.poll, Event.arrive 1, Event.arrive 2, Event.poll, Event.poll,
   Event.notify, Event.poll, Event.arrive 3, Event.poll, Event.poll]

/-- okIds distributes over list append. -/
theorem okIds_append (l1 l2 : List (Option (Except IOError UnixStream))) :
    okIds (l1 ++ l2) = okIds l1 ++ okIds l2 := by
  induction l1 with
  | nil => rfl
  | cons it rest ih => simp [okIds, ih, List.append_assoc]

/-- One step of a run preserves the accounting of connections: the ids of
emitted successes followed by the ids still queued grow exactly by the ids
the event contributes. -/
theorem step_preserves (st : RunState) (ev : Event) :
    okIds (RunState.step st ev).emitted ++ (RunState.step st ev).world.queue
      = okIds st.emitted ++ st.world.queue ++ arrivalsOf ev := by
  obtain ⟨⟨q, r⟩, em⟩ := st
  cases ev with
  | arrive c => simp [RunState.step, arrivalsOf]
  | notify => simp [RunState.step, arrivalsOf]
  | poll =>
    cases r with
    | false =>
      simp [RunState.step, Incoming.poll_next, UnixListener.poll_ready,
        UnixListener.poll_accept_std, envOfWorld, World.applyEffect, arrivalsOf]
    | true =>
      cases q with
      | nil =>
        simp [RunState.step, Incoming.poll_next, UnixListener.poll_ready,
          UnixListener.poll_accept_std, envOfWorld, World.applyEffect,
          arrivalsOf]
      | cons c rest =>
        simp [RunState.step, Incoming.poll_next, UnixListener.poll_ready,
          UnixListener.poll_accept_std, envOfWorld, World.applyEffect,
          arrivalsOf, okIds_append, okIds, okId, UnixStream.new]

/-- Folding a trace of events preserves the accounting of connections from
any starting state. -/
theorem run_invariant_from (evs : List Event) :
    ∀ st : RunState,
      okIds (evs.foldl RunState.step st).emitted
          ++ (evs.foldl RunState.step st).world.queue
        = okIds st.emitted ++ st.world.queue ++ arrivals evs := by
  induction evs with
  | nil =>
    intro st
    simp [arrivals]
  | cons ev rest ih =>
    intro st
    rw [List.foldl_cons, ih (RunState.step st ev), step_preserves]
    simp [arrivals, List.append_assoc]

/-- Claim C3: for every environment trace (arrivals, spurious or batched
readiness notifications, and pulls, in any interleaving), the successful
items emitted by the acceptance sequence followed by the connections still
queued are exactly the arrived connections in order; in particular, once
every arrived connection has been accepted, the pulls that returned items
yielded exactly the N arrived connections — none lost or duplicated — and
distinct arrivals give pairwise-distinct items. -/
theorem acceptance_sequence_no_loss_no_dup (evs : List Event) :
    okIds (run evs).emitted ++ (run evs).world.queue = arrivals evs
    ∧ ((run evs).world.queue = [] →
        okIds (run evs).emitted = arrivals evs)
    ∧ ((arrivals evs).Nodup → (okIds (run evs).emitted).Nodup) := by
  have h : okIds (run evs).emitted ++ (run evs).world.queue = arrivals evs := by
    have h0 := run_invariant_from evs ⟨⟨[], false⟩, []⟩
    simpa [run, okIds] using h0
  refine ⟨h, ?_, ?_⟩
  · intro hq
    have h2 := h
    rw [hq, List.append_nil] at h2
    exact h2
  · intro hnd
    rw [← h] at hnd
    exact List.Nodup.of_append_left hnd

/-- Claim C3 witness: a concrete trace with two connections arriving before
any pull, a spurious notification, and a third later connection; three items
are emitted, exactly the three distinct arrivals in order. -/
theorem acceptance_sequence_no_loss_no_dup_witness :
    okIds (run demoTrace).emitted = arrivals demoTrace
    ∧ (okIds (run demoTrace).emitted).Nodup :=
  ⟨(acceptance_sequence_no_loss_no_dup demoTrace).2.1 (by decide),
   (acceptance_sequence_no_loss_no_dup demoTrace).2.2 (by decide)⟩
